import Mathlib

/-!
Verification of the SportsTournament repository's tournament-structuring core:
poule distribution (`utils/poule_distribution.py`), round-robin match
scheduling (`tournament_types/default_tournament.py`,
`tournament_types/round_robin.py`), standings calculation and knockout
bracket seeding (`utils/bracket_generator.py`).

The Python code is shallowly embedded: Python ints become `Nat`/`Int`,
`None`-able values become `Option`, raised exceptions become
`Except String`, and the SQLite-backed tournament state becomes an explicit
`TState` record that is threaded through the stateful operations.
-/

/-! ### Data model (`models/team.py`, `models/match.py`)

A `Team` is identified by its database id; the display name and players play
no role in the scheduling/standings logic, so only the id is kept.  Python
compares `Team` objects by identity; within the embedded functions every
comparison of teams is between teams taken from the same match record, so
structural equality of ids is an accurate model for well-formed data
(distinct teams have distinct database ids). -/

structure Team where
  id : Nat
deriving DecidableEq, Repr

def defaultTeam : Team := ⟨0⟩

instance : Inhabited Team := ⟨defaultTeam⟩

/-- `MatchPhase` enum from `models/match.py`. -/
inductive MatchPhase where
  | poule
  | knockout
  | consolation
deriving DecidableEq, Repr

/-- `Match` from `models/match.py`.  `poule_id` is modelled by the poule's
name (the database id of a poule is in one-to-one correspondence with its
`(tournament, phase, name)` triple via `get_or_create_poule`). -/
structure Match where
  tournament_id : Nat
  phase : MatchPhase
  poule_id : Option String
  team1 : Team
  team2 : Team
  team1_score : Option Int
  team2_score : Option Int
  sets : List (Int × Int)
deriving DecidableEq, Repr

namespace Match

/-- An unplayed match as constructed by the match generators
(no scores, no sets). -/
def unplayed (tid : Nat) (phase : MatchPhase) (pid : Option String)
    (t1 t2 : Team) : Match :=
  ⟨tid, phase, pid, t1, t2, none, none, []⟩

/-- A played match with aggregate scores only (`sets` empty). -/
def played (tid : Nat) (phase : MatchPhase) (pid : Option String)
    (t1 t2 : Team) (s1 s2 : Int) : Match :=
  ⟨tid, phase, pid, t1, t2, some s1, some s2, []⟩

/-- `Match._calculate_set_wins`. -/
def calculate_set_wins (m : Match) : Int × Int :=
  m.sets.foldl
    (fun acc s =>
      if s.1 > s.2 then (acc.1 + 1, acc.2)
      else if s.2 > s.1 then (acc.1, acc.2 + 1)
      else acc)
    (0, 0)

/-- `Match.is_played`: played iff it has a non-empty set list or both
aggregate scores are present. -/
def is_played (m : Match) : Bool :=
  if ¬ m.sets.isEmpty then true
  else m.team1_score.isSome && m.team2_score.isSome

/-- `Match.winner`: team with more set wins (when sets are recorded) or the
higher aggregate score; `none` on a tie or when unplayed. -/
def winner (m : Match) : Option Team :=
  if ¬ m.is_played then none
  else if ¬ m.sets.isEmpty then
    let w := m.calculate_set_wins
    if w.1 > w.2 then some m.team1
    else if w.2 > w.1 then some m.team2
    else none
  else
    match m.team1_score, m.team2_score with
    | some a, some b =>
        if a > b then some m.team1
        else if b > a then some m.team2
        else none
    | _, _ => none

/-- `Match.loser`. -/
def loser (m : Match) : Option Team :=
  if ¬ m.is_played then none
  else
    match m.winner with
    | some w =>
        if w = m.team1 then some m.team2
        else if w = m.team2 then some m.team1
        else none
    | none => none

end Match

/-! ### Poule distribution (`utils/poule_distribution.py`) -/

/-- The `while team_idx < num_teams` remainder loop of
`distribute_teams_into_poules`, recursing on `remaining = num_teams -
team_idx` (which the loop recomputes on every iteration and decreases by 3
whenever it continues).  `remaining = 1` appends the last team to the last
poule (or makes a singleton poule when there is none); `remaining = 2`
emits a poule of two. -/
def remainderGo : Nat → Nat → List (List Nat) → List (List Nat)
  | 0, _, poules => poules
  | 1, team_idx, poules =>
      match poules.getLast? with
      | some lastPoule => poules.dropLast ++ [lastPoule ++ [team_idx]]
      | none => [[team_idx]]
  | 2, team_idx, poules => poules ++ [[team_idx, team_idx + 1]]
  | (r + 3), team_idx, poules =>
      remainderGo r (team_idx + 3) (poules ++ [[team_idx, team_idx + 1, team_idx + 2]])

/-- `distribute_teams_into_poules(num_teams, teams_per_poule=4)`.
Raises (`Except.error`) when fewer than 3 teams; 5 teams are one poule of
5; otherwise as many full poules of `teams_per_poule` as the two
remainder-adjustment rules leave, followed by the remainder loop. -/
def distribute_teams_into_poules (num_teams teams_per_poule : Nat) :
    Except String (List (List Nat)) :=
  if num_teams < 3 then .error "Minimum 3 teams required"
  else if num_teams = 5 then .ok [[0, 1, 2, 3, 4]]
  else
    let nf0 := num_teams / teams_per_poule
    let r0 := num_teams % teams_per_poule
    -- `if remainder == 1 and num_full_poules > 0`: drop all poules of 4
    let s1 := if r0 = 1 ∧ 0 < nf0 then (0, num_teams) else (nf0, r0)
    -- `if remainder == 2 and num_full_poules > 0`: convert one poule of 4
    let s2 := if s1.2 = 2 ∧ 0 < s1.1 then (s1.1 - 1, 6) else s1
    let fulls := (List.range s2.1).map
      (fun k => List.range' (k * teams_per_poule) teams_per_poule)
    .ok (remainderGo (num_teams - s2.1 * teams_per_poule)
          (s2.1 * teams_per_poule) fulls)

/-- `generate_poule_names` from `utils/poules.py`: "A", "B", "C", ... -/
def generate_poule_names (num_poules : Nat) : List String :=
  (List.range num_poules).map (fun i => (Char.ofNat (65 + i)).toString)

/-! ### Round-robin match generation

Both `DefaultTournament.generate_matches` (per poule) and
`RoundRobinTournament.generate_matches` (whole team list) contain the same
nested loop `for i in range(len(teams)): for j in range(i+1, len(teams))`
creating one unplayed match per `i < j`; `round_robin_matches` is that loop
verbatim over an explicit team list. -/

def round_robin_matches (tid : Nat) (phase : MatchPhase) (pid : Option String)
    (teams : List Team) : List Match :=
  (List.range teams.length).flatMap
    (fun i =>
      (List.range' (i + 1) (teams.length - (i + 1))).map
        (fun j => Match.unplayed tid phase pid (teams.getD i defaultTeam)
                    (teams.getD j defaultTeam)))

/-! ### Tournament state

The SQLite tables behind a saved tournament, restricted to one tournament:
its registered teams, its poules (by name) and its matches.  The Python
methods read this state through `self.get_teams()` / `get_poules_by_tournament`
/ `self.get_matches(...)` and write to it through `match.save()` /
`get_or_create_poule`; the embeddings thread it explicitly.  A saved
tournament id is passed as a plain `Nat` (all claims concern saved
tournaments, whose `self.id` is set). -/

structure TState where
  teams : List Team
  poules : List String
  «matches» : List Match
deriving DecidableEq, Repr

namespace DefaultTournament

/-- `DefaultTournament.generate_matches(teams_per_poule=4)`: raises when
fewer than 3 teams, otherwise distributes teams into poules, creates the
poules ("A", "B", ... via `get_or_create_poule`, which re-uses an existing
poule of the same name) and saves one round-robin match set per poule. -/
def generate_matches (tid : Nat) (st : TState) :
    Except String (TState × List Match) :=
  if st.teams.length < 3 then .error "Minimum 3 teams required"
  else do
    let dist ← distribute_teams_into_poules st.teams.length 4
    let names := generate_poule_names dist.length
    let ms := (dist.zip names).flatMap
      (fun pn => round_robin_matches tid MatchPhase.poule (some pn.2)
        (pn.1.map (fun k => st.teams.getD k defaultTeam)))
    .ok ({ st with
            poules := st.poules ++ names.filter (fun n => ! st.poules.contains n),
            «matches» := st.«matches» ++ ms }, ms)

end DefaultTournament

namespace RoundRobinTournament

/-- `RoundRobinTournament.generate_matches`: with fewer than 2 teams it
returns an empty list (no error, nothing saved); otherwise it saves one
match per unordered team pair, tagged with the POULE phase and no poule. -/
def generate_matches (tid : Nat) (st : TState) :
    Except String (TState × List Match) :=
  if st.teams.length < 2 then .ok (st, [])
  else
    let ms := round_robin_matches tid MatchPhase.poule none st.teams
    .ok ({ st with «matches» := st.«matches» ++ ms }, ms)

end RoundRobinTournament

/-! ### Team statistics (`utils/bracket_generator.py`, class `TeamStats`) -/

/-- `TeamStats`: per-team counters within one scope.  `wins`/`losses` are
match counters; `sets_won`/`sets_lost` accumulate the (integer) match
scores; `points_for`/`points_against` exist in the class but are never
updated by `calculate_poule_standings`. -/
structure TeamStats where
  team : Team
  wins : Nat
  losses : Nat
  sets_won : Int
  sets_lost : Int
  points_for : Int
  points_against : Int
deriving DecidableEq, Repr

namespace TeamStats

def init (t : Team) : TeamStats := ⟨t, 0, 0, 0, 0, 0, 0⟩

/-- `TeamStats.sets_balance` property. -/
def sets_balance (s : TeamStats) : Int := s.sets_won - s.sets_lost

/-- `TeamStats.points_balance` property. -/
def points_balance (s : TeamStats) : Int := s.points_for - s.points_against

/-- `TeamStats.__lt__`: compare by wins, then sets balance, then points
balance (strictly less). -/
def ltb (a b : TeamStats) : Bool :=
  if a.wins ≠ b.wins then decide (a.wins < b.wins)
  else if a.sets_balance ≠ b.sets_balance then decide (a.sets_balance < b.sets_balance)
  else decide (a.points_balance < b.points_balance)

end TeamStats

/-! ### Python's stable sort

`list.sort(key=..., reverse=True)` is a stable descending sort: element `x`
precedes `y` in the output iff `key(y) < key(x)`, or the keys are
equivalent and `x` preceded `y` in the input.  A stable insertion sort with
the total preorder `le x y = "x may precede y"` has exactly these
semantics. -/

def orderedInsertBy (le : α → α → Bool) (x : α) : List α → List α
  | [] => [x]
  | y :: l => if le x y then x :: y :: l else y :: orderedInsertBy le x l

def insortBy (le : α → α → Bool) : List α → List α
  | [] => []
  | x :: l => orderedInsertBy le x (insortBy le l)

/-! ### Standings (`calculate_poule_standings`)

Python's `stats_dict` is a dict keyed by team id; it is modelled as an
association list with insertion order and overwrite-on-duplicate-key,
exactly the dict-comprehension semantics. -/

abbrev Dict := List (Nat × TeamStats)

/-- Insert with dict semantics: overwrite an existing key in place,
otherwise append. -/
def dinsert (d : Dict) (k : Nat) (v : TeamStats) : Dict :=
  if d.any (fun kv => kv.1 = k) then
    d.map (fun kv => if kv.1 = k then (k, v) else kv)
  else d ++ [(k, v)]

/-- `stats_dict[k]` lookup. -/
def dfind (d : Dict) (k : Nat) : Option TeamStats :=
  (d.find? (fun kv => kv.1 = k)).map (fun kv => kv.2)

/-- `{team.id: TeamStats(team) for team in teams}`. -/
def initStats (teams : List Team) : Dict :=
  teams.foldl (fun d t => dinsert d t.id (TeamStats.init t)) []

/-- `if match.team1.id in stats_dict: ...` — the team1 side of the stats
update.  When the key is absent the guard fails and the dict is unchanged
(the map leaves every entry alone). -/
def updateTeam1 (m : Match) (d : Dict) : Dict :=
  d.map (fun kv =>
    if kv.1 = m.team1.id then
      let s0 := kv.2
      let s1 := { s0 with
        sets_won := s0.sets_won + (m.team1_score.getD 0),
        sets_lost := s0.sets_lost + (m.team2_score.getD 0) }
      let s2 :=
        if m.winner = some m.team1 then { s1 with wins := s1.wins + 1 }
        else if m.loser = some m.team1 then { s1 with losses := s1.losses + 1 }
        else s1
      (kv.1, s2)
    else kv)

/-- The team2 side of the stats update. -/
def updateTeam2 (m : Match) (d : Dict) : Dict :=
  d.map (fun kv =>
    if kv.1 = m.team2.id then
      let s0 := kv.2
      let s1 := { s0 with
        sets_won := s0.sets_won + (m.team2_score.getD 0),
        sets_lost := s0.sets_lost + (m.team1_score.getD 0) }
      let s2 :=
        if m.winner = some m.team2 then { s1 with wins := s1.wins + 1 }
        else if m.loser = some m.team2 then { s1 with losses := s1.losses + 1 }
        else s1
      (kv.1, s2)
    else kv)

/-- The body of `for match in matches:` — unplayed matches are skipped,
then the two sides are updated in order. -/
def processMatch (d : Dict) (m : Match) : Dict :=
  if ¬ m.is_played then d
  else updateTeam2 m (updateTeam1 m d)

/-- `calculate_poule_standings(teams, matches)`: build the stats dict,
fold the matches over it, pair every roster team with its stats and sort by
`TeamStats` descending (stable). -/
def calculate_poule_standings (teams : List Team) (ms : List Match) :
    List (Team × TeamStats) :=
  let d := ms.foldl processMatch (initStats teams)
  let standings := teams.filterMap
    (fun t => (dfind d t.id).map (fun s => (t, s)))
  insortBy (fun p q => ! TeamStats.ltb p.2 q.2) standings

/-! ### Qualified teams (`get_qualified_teams_from_poules`) -/

/-- A qualifier: `(team, poule_name, stats)` triple. -/
abbrev Qualified := Team × String × TeamStats

/-- String `sorted()` / SQL `ORDER BY name` on poule names. -/
def sortedNames (names : List String) : List String :=
  insortBy (fun a b => decide (a ≤ b)) names

/-- The distinct team ids mentioned by a list of matches.  Python collects
them into a `set` of small ints and iterates it; CPython iterates a set of
small non-negative ints in ascending order, modelled here by sorting the
deduplicated ids. -/
def matchTeamIds (ms : List Match) : List Nat :=
  (insortBy (fun a b => decide (a ≤ b))
    (ms.flatMap (fun m => [m.team1.id, m.team2.id]))).dedup

/-- `Team.get_by_id` against the tournament's roster. -/
def getTeamById (st : TState) (i : Nat) : Option Team :=
  st.teams.find? (fun t => t.id = i)

/-- The body of `for poule_id, poule_name in poules:` in
`get_qualified_teams_from_poules`: collect that poule's played teams,
rank them, and keep the top `top_n` tagged with the poule name. -/
def qualifiedOfPoule (st : TState) (top_n : Nat) (poule_name : String) :
    List Qualified :=
  let all_matches := st.«matches».filter (fun m => m.phase = MatchPhase.poule)
  let poule_matches := all_matches.filter (fun m => m.poule_id = some poule_name)
  let teams := (matchTeamIds poule_matches).filterMap (getTeamById st)
  if teams.isEmpty then []
  else
    ((calculate_poule_standings teams poule_matches).take top_n).map
      (fun ts => (ts.1, poule_name, ts.2))

/-- `get_qualified_teams_from_poules(tournament_id, top_n)`: top `top_n`
teams of every poule (poules in name order), then all qualifiers sorted
best-first by their stats (stable descending sort). -/
def get_qualified_teams_from_poules (st : TState) (top_n : Nat) :
    List Qualified :=
  let qualified := (sortedNames st.poules).flatMap (qualifiedOfPoule st top_n)
  insortBy (fun q1 q2 => ! TeamStats.ltb q1.2.2 q2.2.2) qualified

def defaultQualified : Qualified := (defaultTeam, "", TeamStats.init defaultTeam)

/-! ### Knockout bracket (`generate_knockout_bracket`) -/

/-- The loop header `for idx, (team, poule_name) in enumerate(qualified_teams)`
destructures each element of `qualified_teams` into two names — but the
elements are `(team, poule_name, stats)` 3-tuples, so Python raises
`ValueError: too many values to unpack (expected 2)` as soon as the loop
body is entered. -/
def unpackTwoOfThree (_q : Qualified) : Except String (Team × String) :=
  Except.error "ValueError: too many values to unpack (expected 2)"

/-- The `poule_groups` loop of `generate_knockout_bracket`: one
`unpackTwoOfThree` per element.  The dict the loop body would build is
never read after the loop, so a successful iteration would leave no
observable effect; the loop errors on its first element whenever
`qualified_teams` is non-empty. -/
def poule_groups_loop (qs : List Qualified) : Except String Unit :=
  qs.foldlM (fun _ q => do let _ ← unpackTwoOfThree q; pure ()) ()

/-- `defaultdict(list)` grouping `poule_teams[poule_name].append(team)`:
insertion-ordered keys, append at an existing key. -/
def groupAdd (acc : List (String × List Team)) (name : String) (t : Team) :
    List (String × List Team) :=
  if acc.any (fun g => g.1 = name) then
    acc.map (fun g => if g.1 = name then (g.1, g.2 ++ [t]) else g)
  else acc ++ [(name, [t])]

/-- `for team, poule_name, stats in qualified_teams: poule_teams[poule_name].append(team)`. -/
def group_by_poule (qs : List Qualified) : List (String × List Team) :=
  qs.foldl (fun acc q => groupAdd acc q.2.1 q.1) []

/-- `poule_teams[name]` for a name among the keys. -/
def groupFind (g : List (String × List Team)) (name : String) : List Team :=
  ((g.find? (fun e => e.1 = name)).map (fun e => e.2)).getD []

/-- `teams_by_poule[k][1] if len(teams_by_poule[k]) > 1 else teams_by_poule[k][0]`. -/
def secondOrFirst (l : List Team) : Team :=
  if 1 < l.length then l.getD 1 defaultTeam else l.getD 0 defaultTeam

/-- `generate_knockout_bracket(tournament_id, qualified_teams)`.  Fewer
than 2 qualifiers return no matches; otherwise the `poule_groups` loop runs
first (and raises on its 3-tuple unpacking), followed by the
4/6/8/other-count pairing logic of the source. -/
def generate_knockout_bracket (tid : Nat) (qs : List Qualified) :
    Except String (List Match) :=
  let num_teams := qs.length
  if num_teams < 2 then .ok []
  else do
    let _ ← poule_groups_loop qs
    let poule_teams := group_by_poule qs
    if num_teams = 4 then
      let poule_names := sortedNames (poule_teams.map (fun g => g.1))
      if poule_names.length = 2 then
        let a_teams := groupFind poule_teams (poule_names.getD 0 "")
        let b_teams := groupFind poule_teams (poule_names.getD 1 "")
        let ms1 :=
          if 1 ≤ a_teams.length ∧ 2 ≤ b_teams.length then
            [Match.unplayed tid MatchPhase.knockout none
              (a_teams.getD 0 defaultTeam) (b_teams.getD 1 defaultTeam)]
          else []
        let ms2 :=
          if 2 ≤ a_teams.length ∧ 1 ≤ b_teams.length then
            [Match.unplayed tid MatchPhase.knockout none
              (b_teams.getD 0 defaultTeam) (a_teams.getD 1 defaultTeam)]
          else []
        .ok (ms1 ++ ms2)
      else
        .ok [Match.unplayed tid MatchPhase.knockout none
               (qs.getD 0 defaultQualified).1 (qs.getD 3 defaultQualified).1,
             Match.unplayed tid MatchPhase.knockout none
               (qs.getD 1 defaultQualified).1 (qs.getD 2 defaultQualified).1]
    else if num_teams = 6 then
      .ok [Match.unplayed tid MatchPhase.knockout none
             (qs.getD 2 defaultQualified).1 (qs.getD 5 defaultQualified).1,
           Match.unplayed tid MatchPhase.knockout none
             (qs.getD 3 defaultQualified).1 (qs.getD 4 defaultQualified).1]
    else if num_teams = 8 then
      let poule_names := sortedNames (poule_teams.map (fun g => g.1))
      if poule_names.length = 4 then
        let tbp := poule_names.map (groupFind poule_teams)
        .ok [Match.unplayed tid MatchPhase.knockout none
               ((tbp.getD 0 []).getD 0 defaultTeam) (secondOrFirst (tbp.getD 3 [])),
             Match.unplayed tid MatchPhase.knockout none
               ((tbp.getD 3 []).getD 0 defaultTeam) (secondOrFirst (tbp.getD 0 [])),
             Match.unplayed tid MatchPhase.knockout none
               ((tbp.getD 1 []).getD 0 defaultTeam) (secondOrFirst (tbp.getD 2 [])),
             Match.unplayed tid MatchPhase.knockout none
               ((tbp.getD 2 []).getD 0 defaultTeam) (secondOrFirst (tbp.getD 1 []))]
      else
        .ok ((List.range 4).map (fun i =>
          Match.unplayed tid MatchPhase.knockout none
            (qs.getD i defaultQualified).1 (qs.getD (7 - i) defaultQualified).1))
    else
      .ok ((List.range (num_teams / 2)).map (fun i =>
        Match.unplayed tid MatchPhase.knockout none
          (qs.getD i defaultQualified).1
          (qs.getD (num_teams - 1 - i) defaultQualified).1))

/-! ### Knockout orchestration (`tournament_types/default_tournament.py`) -/

/-- `DefaultTournament.all_poule_matches_played`: `False` when the
tournament has no poule-phase matches, otherwise whether all of them are
played. -/
def all_poule_matches_played (st : TState) : Bool :=
  let ms := st.«matches».filter (fun m => m.phase = MatchPhase.poule)
  if ms.isEmpty then false else ms.all Match.is_played

namespace DefaultTournament

/-- `DefaultTournament.generate_knockout_matches`: raises unless every
poule match is played, then seeds the bracket from the top 2 of every
poule and saves the produced matches. -/
def generate_knockout_matches (tid : Nat) (st : TState) :
    Except String (TState × List Match) :=
  if ¬ all_poule_matches_played st then
    .error "All poule matches must be played before generating knockout bracket"
  else do
    let qualified := get_qualified_teams_from_poules st 2
    let ms ← generate_knockout_bracket tid qualified
    .ok ({ st with «matches» := st.«matches» ++ ms }, ms)

end DefaultTournament

/-- The spec's ranking order, stated from its own words: `a` ranks at
least as high as `b` when it has strictly more wins, or equal wins and
strictly better sets balance, or equal on both and at least the points
balance. -/
def rankGe (a b : TeamStats) : Prop :=
  b.wins < a.wins ∨
    (a.wins = b.wins ∧
      (b.sets_balance < a.sets_balance ∨
        (a.sets_balance = b.sets_balance ∧ b.points_balance ≤ a.points_balance)))

/-! ### Concrete tournaments used as evidence -/

deriving instance DecidableEq for Except

def teamA : Team := ⟨1⟩
def teamB : Team := ⟨2⟩
def teamC : Team := ⟨3⟩

/-- A default tournament with one poule "A" of three teams whose three
poule matches are all played (1 beat 2 and 3; 2 beat 3). -/
def stPlayed : TState :=
  { teams := [teamA, teamB, teamC], poules := ["A"],
    «matches» := [Match.played 1 MatchPhase.poule (some "A") teamA teamB 3 0,
                  Match.played 1 MatchPhase.poule (some "A") teamA teamC 3 1,
                  Match.played 1 MatchPhase.poule (some "A") teamB teamC 3 2] }

/-- The same tournament with its last poule match still unplayed. -/
def stUnplayed : TState :=
  { teams := [teamA, teamB, teamC], poules := ["A"],
    «matches» := [Match.played 1 MatchPhase.poule (some "A") teamA teamB 3 0,
                  Match.played 1 MatchPhase.poule (some "A") teamA teamC 3 1,
                  Match.unplayed 1 MatchPhase.poule (some "A") teamB teamC] }

/-- The same tournament before any match generation. -/
def stNoMatches : TState :=
  { teams := [teamA, teamB, teamC], poules := [], «matches» := [] }

/-- Six qualifiers from three poules, globally ranked best-first
(strictly decreasing wins). -/
def sixQualifiers : List Qualified :=
  [(⟨1⟩, "A", ⟨⟨1⟩, 5, 0, 10, 0, 0, 0⟩), (⟨3⟩, "B", ⟨⟨3⟩, 4, 1, 8, 2, 0, 0⟩),
   (⟨5⟩, "C", ⟨⟨5⟩, 3, 2, 6, 4, 0, 0⟩), (⟨2⟩, "A", ⟨⟨2⟩, 2, 3, 4, 6, 0, 0⟩),
   (⟨4⟩, "B", ⟨⟨4⟩, 1, 4, 2, 8, 0, 0⟩), (⟨6⟩, "C", ⟨⟨6⟩, 0, 5, 0, 10, 0, 0⟩)]

/-- Four qualifiers from two poules A and B (two per poule), globally
ranked best-first. -/
def fourQualifiers : List Qualified :=
  [(⟨1⟩, "A", ⟨⟨1⟩, 3, 0, 6, 0, 0, 0⟩), (⟨3⟩, "B", ⟨⟨3⟩, 2, 1, 4, 2, 0, 0⟩),
   (⟨2⟩, "A", ⟨⟨2⟩, 1, 2, 2, 4, 0, 0⟩), (⟨4⟩, "B", ⟨⟨4⟩, 0, 3, 0, 6, 0, 0⟩)]

/-- A tournament with a single registered team and no matches. -/
def stOneTeam : TState := { teams := [teamA], poules := [], «matches» := [] }

/-- A tournament with exactly two registered teams and no matches — below
the poule-based 3-team minimum but at the round-robin 2-team minimum. -/
def stTwoTeams : TState := { teams := [teamA, teamB], poules := [], «matches» := [] }

/-- The tournament state after one successful initial match generation on
`stNoMatches` (one poule "A" with three unplayed matches). -/
def stGenerated : TState :=
  match DefaultTournament.generate_matches 1 stNoMatches with
  | .ok p => p.1
  | .error _ => stNoMatches

/-- A team id that is not on any roster used here. -/
def teamX : Team := ⟨9⟩

/-- A played match between a roster team and an absent team. -/
def matchWithAbsentTeam : Match :=
  Match.played 1 MatchPhase.poule none teamA teamX 3 0

/-- A played match both of whose teams are absent from the roster
`[teamA]`. -/
def matchBothAbsent : Match :=
  Match.played 1 MatchPhase.poule none teamX ⟨10⟩ 3 0

/-- C1: for 3..40 teams all poule sizes should be 3 or 4 (except the
5-team poule) — refuted by the code at 17 teams: the `remainder == 1` rule
discards all poules of 4 and partitions into poules of 3, but 17 is not
divisible by 3, so the remainder loop ends with the degenerate poule
`[15, 16]` of size 2. -/
theorem c1_distribute17_produces_size_two_poule :
    distribute_teams_into_poules 17 4 =
      .ok [[0,1,2],[3,4,5],[6,7,8],[9,10,11],[12,13,14],[15,16]] ∧
    ∃ p ∈ [[0,1,2],[3,4,5],[6,7,8],[9,10,11],[12,13,14],([15,16] : List Nat)],
      ¬ (p.length = 3 ∨ p.length = 4) := by
  decide

/-- C2: with 6 globally-ranked qualifiers `generate_knockout_bracket`
should pair rank 3 vs rank 6 and rank 4 vs rank 5 with byes for ranks 1,2 —
but the function raises `ValueError` on every call with at least two
qualifiers, because its `poule_groups` loop unpacks each
`(team, poule_name, stats)` 3-tuple into the two names
`idx, (team, poule_name)`. -/
theorem c2_bracket_of_six_raises_unpack_error :
    generate_knockout_bracket 1 sixQualifiers =
      .error "ValueError: too many values to unpack (expected 2)" := by
  decide

/-- C3: with 4 qualifiers from two poules `generate_knockout_bracket`
should return A1-vs-B2 and B1-vs-A2 — but the same 3-tuple unpacking in
the `poule_groups` loop raises `ValueError` before any pairing logic
runs. -/
theorem c3_bracket_of_four_raises_unpack_error :
    generate_knockout_bracket 1 fourQualifiers =
      .error "ValueError: too many values to unpack (expected 2)" := by
  decide

/-- C5: `generate_knockout_matches` does fail while poule matches are
unplayed (also when none exist), but after the last poule match is played
it still fails — the seeded qualifiers reach `generate_knockout_bracket`,
whose 3-tuple unpacking raises `ValueError` — instead of succeeding. -/
theorem c5_knockout_prereq_then_crash :
    DefaultTournament.generate_knockout_matches 1 stUnplayed =
      .error "All poule matches must be played before generating knockout bracket" ∧
    DefaultTournament.generate_knockout_matches 1 stNoMatches =
      .error "All poule matches must be played before generating knockout bracket" ∧
    DefaultTournament.generate_knockout_matches 1 stPlayed =
      .error "ValueError: too many values to unpack (expected 2)" := by
  decide

/-- C8 counterexample: generating matches a second time on a tournament
that already has matches does not fail — it succeeds and saves a second
full set (3 existing + 3 new duplicates), because neither variant checks
for existing matches (only the UI hides the button). -/
theorem c8_second_generation_succeeds :
    Except.map (fun p => p.2.length) (DefaultTournament.generate_matches 1 stNoMatches)
      = .ok 3 ∧
    Except.map (fun p => (p.1.«matches».length, p.2.length))
        (DefaultTournament.generate_matches 1 stGenerated)
      = .ok (6, 3) := by
  decide

/-- C9 counterexample: `RoundRobinTournament.generate_matches` on a
tournament with a single registered team (below the claimed minimum of 2)
does not fail — it returns an empty match list. -/
theorem c9_round_robin_below_minimum_returns_ok :
    RoundRobinTournament.generate_matches 1 stOneTeam = .ok (stOneTeam, []) := by
  decide

/-- C9 amended: the poule-based variant does raise (`ValueError`, the
spec's `InsufficientTeamsError`) whenever fewer than 3 teams are
registered, but the flat round-robin variant silently returns an empty
match list below its 2-team minimum instead of failing. -/
theorem c9_minimum_team_checks (tid : Nat) (st : TState) :
    (st.teams.length < 3 →
      DefaultTournament.generate_matches tid st = .error "Minimum 3 teams required") ∧
    (st.teams.length < 2 →
      RoundRobinTournament.generate_matches tid st = .ok (st, [])) := by
  constructor
  · intro h3
    simp [DefaultTournament.generate_matches, h3]
  · intro h2
    simp [RoundRobinTournament.generate_matches, h2]

/-- Witness for `c9_minimum_team_checks`: the poule-based half at the
boundary two-team roster, the round-robin half at a one-team roster. -/
theorem c9_minimum_team_checks_witness :
    DefaultTournament.generate_matches 1 stTwoTeams = .error "Minimum 3 teams required" ∧
    RoundRobinTournament.generate_matches 1 stOneTeam = .ok (stOneTeam, []) :=
  ⟨(c9_minimum_team_checks 1 stTwoTeams).1 (by decide),
   (c9_minimum_team_checks 1 stOneTeam).2 (by decide)⟩

/-- C10 counterexample: a match referencing the absent team `teamX` does
not surface any error from `calculate_poule_standings` — the computation
returns normally, counting the match for the present team and silently
dropping the absent team's side. -/
theorem c10_absent_team_is_silently_skipped :
    calculate_poule_standings [teamA] [matchWithAbsentTeam] =
      [(teamA, ⟨teamA, 1, 0, 3, 0, 0, 0⟩)] := by
  decide

/-! ### Lemmas: absent teams are invisible to the standings fold -/

theorem list_map_eq_self {α : Type} {f : α → α} {l : List α}
    (h : ∀ x ∈ l, f x = x) : l.map f = l := by
  induction l with
  | nil => rfl
  | cons x l ih =>
      simp only [List.map_cons, h x (List.mem_cons_self x l)]
      rw [ih (fun y hy => h y (List.mem_cons_of_mem x hy))]

theorem updateTeam1_absent (m : Match) (d : Dict)
    (h : m.team1.id ∉ d.map Prod.fst) : updateTeam1 m d = d := by
  apply list_map_eq_self
  intro kv hkv
  have hne : kv.1 ≠ m.team1.id := by
    intro he
    exact h (he ▸ List.mem_map_of_mem Prod.fst hkv)
  simp [hne]

theorem updateTeam2_absent (m : Match) (d : Dict)
    (h : m.team2.id ∉ d.map Prod.fst) : updateTeam2 m d = d := by
  apply list_map_eq_self
  intro kv hkv
  have hne : kv.1 ≠ m.team2.id := by
    intro he
    exact h (he ▸ List.mem_map_of_mem Prod.fst hkv)
  simp [hne]

theorem dinsert_keys (d : Dict) (k : Nat) (v : TeamStats) :
    ∀ x ∈ (dinsert d k v).map Prod.fst, x ∈ d.map Prod.fst ∨ x = k := by
  intro x hx
  unfold dinsert at hx
  split at hx
  · rw [List.map_map, List.mem_map] at hx
    obtain ⟨kv, hkv, hfx⟩ := hx
    by_cases hk : kv.1 = k
    · right; simp [hk] at hfx; omega
    · left; simp [hk] at hfx; exact hfx ▸ List.mem_map_of_mem Prod.fst hkv
  · rw [List.map_append, List.mem_append] at hx
    rcases hx with hx | hx
    · exact Or.inl hx
    · right; simpa using hx

theorem initStats_keys (teams : List Team) :
    ∀ k ∈ (initStats teams).map Prod.fst, k ∈ teams.map Team.id := by
  suffices h : ∀ (ts : List Team) (d : Dict),
      ∀ k ∈ ((ts.foldl (fun d t => dinsert d t.id (TeamStats.init t)) d).map Prod.fst),
        k ∈ d.map Prod.fst ∨ k ∈ ts.map Team.id by
    intro k hk
    rcases h teams [] k hk with hc | hc
    · simp at hc
    · exact hc
  intro ts
  induction ts with
  | nil => intro d k hk; exact Or.inl hk
  | cons t ts ih =>
      intro d k hk
      rcases ih (dinsert d t.id (TeamStats.init t)) k hk with hc | hc
      · rcases dinsert_keys d t.id (TeamStats.init t) k hc with hc2 | hc2
        · exact Or.inl hc2
        · exact Or.inr (by simp [hc2])
      · exact Or.inr (List.mem_cons_of_mem _ hc)

theorem processMatch_absent (teams : List Team) (m : Match)
    (h1 : m.team1.id ∉ teams.map Team.id) (h2 : m.team2.id ∉ teams.map Team.id) :
    processMatch (initStats teams) m = initStats teams := by
  unfold processMatch
  split
  · rfl
  · have k1 : m.team1.id ∉ (initStats teams).map Prod.fst :=
      fun hm => h1 (initStats_keys teams _ hm)
    have k2 : m.team2.id ∉ (initStats teams).map Prod.fst :=
      fun hm => h2 (initStats_keys teams _ hm)
    rw [updateTeam1_absent m _ k1, updateTeam2_absent m _ k2]

/-- C10 amended: a match referencing only teams absent from the supplied
roster contributes nothing to the standings and raises no error — it is
silently dropped, leaving `calculate_poule_standings` unchanged (the
source guards every dict access with `if ... in stats_dict` and contains
no raise). -/
theorem c10_match_of_absent_teams_is_dropped (teams : List Team)
    (ms : List Match) (m : Match)
    (h1 : m.team1.id ∉ teams.map Team.id) (h2 : m.team2.id ∉ teams.map Team.id) :
    calculate_poule_standings teams (m :: ms) = calculate_poule_standings teams ms := by
  unfold calculate_poule_standings
  rw [List.foldl_cons, processMatch_absent teams m h1 h2]

/-- Witness for `c10_match_of_absent_teams_is_dropped`: dropping the
match between the two off-roster teams `⟨9⟩` and `⟨10⟩`. -/
theorem c10_match_of_absent_teams_is_dropped_witness :
    calculate_poule_standings [teamA] [matchBothAbsent] =
      calculate_poule_standings [teamA] [] :=
  c10_match_of_absent_teams_is_dropped [teamA] [] matchBothAbsent
    (by decide) (by decide)

theorem except_bind_error {a b : Type} (e : String) (f : a → Except String b) :
    ((Except.error e : Except String a) >>= f) = Except.error e := rfl

theorem except_bind_ok' {a b : Type} (x : a) (f : a → Except String b) :
    ((Except.ok x : Except String a) >>= f) = f x := rfl

/-- C8 amended: neither variant's `generate_matches` checks for existing
matches — its outcome (error or generated list) depends only on the
registered teams, and on success it appends the full newly generated set
to whatever matches the tournament already has.  Duplicate-scheduling
prevention lives only in the UI, which hides the generation button once
matches exist. -/
theorem c8_generation_has_no_already_generated_guard (tid : Nat)
    (teams : List Team) (poules : List String) (ms1 ms2 : List Match) :
    Except.map Prod.snd (DefaultTournament.generate_matches tid ⟨teams, poules, ms1⟩)
      = Except.map Prod.snd (DefaultTournament.generate_matches tid ⟨teams, poules, ms2⟩) ∧
    Except.map Prod.snd (RoundRobinTournament.generate_matches tid ⟨teams, poules, ms1⟩)
      = Except.map Prod.snd (RoundRobinTournament.generate_matches tid ⟨teams, poules, ms2⟩) ∧
    (∀ st' g, DefaultTournament.generate_matches tid ⟨teams, poules, ms1⟩ = .ok (st', g) →
      st'.«matches» = ms1 ++ g) ∧
    (∀ st' g, RoundRobinTournament.generate_matches tid ⟨teams, poules, ms1⟩ = .ok (st', g) →
      st'.«matches» = ms1 ++ g) := by
  refine ⟨?_, ?_, ?_, ?_⟩
  · simp only [DefaultTournament.generate_matches]
    split
    · rfl
    · cases distribute_teams_into_poules teams.length 4 <;> rfl
  · simp only [RoundRobinTournament.generate_matches]
    split <;> rfl
  · intro st' g h
    simp only [DefaultTournament.generate_matches] at h
    split at h
    · exact absurd h (by simp)
    · cases hd : distribute_teams_into_poules teams.length 4 with
      | error e => rw [hd] at h; rw [except_bind_error] at h; exact Except.noConfusion h
      | ok dist =>
          rw [hd] at h
          rw [except_bind_ok'] at h
          simp only [Except.ok.injEq, Prod.mk.injEq] at h
          obtain ⟨hst, hg⟩ := h
          rw [← hst, ← hg]
  · intro st' g h
    simp only [RoundRobinTournament.generate_matches] at h
    split at h
    · simp only [Except.ok.injEq, Prod.mk.injEq] at h
      obtain ⟨hst, hg⟩ := h
      rw [← hst, ← hg]
      simp
    · simp only [Except.ok.injEq, Prod.mk.injEq] at h
      obtain ⟨hst, hg⟩ := h
      rw [← hst, ← hg]

/-- Witness for `c8_generation_has_no_already_generated_guard`: a second
generation on `stGenerated` (which already has 3 matches) behaves exactly
as on a match-free tournament and appends its output. -/
theorem c8_generation_has_no_already_generated_guard_witness :
    Except.map Prod.snd
        (DefaultTournament.generate_matches 1 ⟨[teamA, teamB, teamC], ["A"], stGenerated.«matches»⟩)
      = Except.map Prod.snd (DefaultTournament.generate_matches 1 ⟨[teamA, teamB, teamC], ["A"], []⟩) ∧
    (∀ st' g, DefaultTournament.generate_matches 1 ⟨[teamA, teamB, teamC], ["A"], stGenerated.«matches»⟩
        = .ok (st', g) → st'.«matches» = stGenerated.«matches» ++ g) :=
  ⟨(c8_generation_has_no_already_generated_guard 1 [teamA, teamB, teamC] ["A"]
      stGenerated.«matches» []).1,
   (c8_generation_has_no_already_generated_guard 1 [teamA, teamB, teamC] ["A"]
      stGenerated.«matches» []).2.2.1⟩

/-- C4 counterexample: 13 ≡ 1 (mod 4) and at least one poule of 4 would
otherwise form, yet the result is not a partition into poules of 3: the
all-threes rewrite leaves a final team that the remainder loop appends to
the last poule, giving sizes [3, 3, 3, 4]. -/
theorem c4_distribute13_keeps_a_poule_of_four :
    Except.map (List.map List.length) (distribute_teams_into_poules 13 4) =
      .ok [3, 3, 3, 4] ∧
    distribute_teams_into_poules 13 4 =
      .ok [[0,1,2],[3,4,5],[6,7,8],[9,10,11,12]] := by
  decide

theorem remainderGo_of_three_dvd (r : Nat) :
    ∀ (idx : Nat) (acc : List (List Nat)), r % 3 = 0 →
      remainderGo r idx acc =
        acc ++ (List.range (r / 3)).map
          (fun k => [idx + 3*k, idx + 3*k + 1, idx + 3*k + 2]) := by
  induction r using Nat.strong_induction_on with
  | _ r ih =>
    match r with
    | 0 => intro idx acc _; simp [remainderGo]
    | 1 => intro idx acc h3; omega
    | 2 => intro idx acc h3; omega
    | (n + 3) =>
        intro idx acc h3
        rw [show remainderGo (n + 3) idx acc
              = remainderGo n (idx + 3) (acc ++ [[idx, idx + 1, idx + 2]]) from rfl]
        rw [ih n (by omega) (idx + 3) (acc ++ [[idx, idx + 1, idx + 2]]) (by omega)]
        have hq : (n + 3) / 3 = n / 3 + 1 := by omega
        rw [hq, List.range_succ_eq_map, List.map_cons, List.map_map, List.append_assoc]
        congr 1
        simp only [Nat.mul_zero, Nat.add_zero, List.singleton_append]
        congr 1
        apply List.map_congr_left
        intro k _
        simp only [Function.comp_apply, Nat.succ_eq_add_one]
        have e1 : idx + 3 + 3 * k = idx + 3 * (k + 1) := by ring
        rw [e1]

theorem flatten_triples (m : Nat) :
    ((List.range m).map (fun k => [3*k, 3*k+1, 3*k+2])).flatten = List.range (3*m) := by
  induction m with
  | zero => rfl
  | succ m ih =>
      rw [List.range_succ, List.map_append, List.flatten_append, ih]
      have : 3 * (m + 1) = (3 * m + 1) + 1 + 1 := by omega
      rw [this, List.range_succ, List.range_succ, List.range_succ]
      simp only [List.append_assoc, List.singleton_append, List.cons_append,
        List.nil_append, List.append_cancel_left_eq, List.cons.injEq, and_true,
        true_and]
      rfl

/-- C4 amended: when `num_teams ≡ 1 (mod 4)` (with at least one poule of 4
otherwise forming, i.e. `num_teams ≥ 9`) the algorithm discards all poules
of 4 and then repeatedly takes poules of 3 — which yields a partition
entirely into poules of size 3 exactly when `num_teams` is also divisible
by 3; in particular `distribute(9) = [[0,1,2],[3,4,5],[6,7,8]]`.  (When
`num_teams mod 3 ≠ 0` the remainder loop's degenerate tail applies, as the
counterexample at 13 shows.) -/
theorem c4_mod4_one_and_mod3_zero_gives_all_triples (n : Nat)
    (h4 : n % 4 = 1) (h3 : n % 3 = 0) (h9 : 9 ≤ n) :
    distribute_teams_into_poules n 4 =
      .ok ((List.range (n / 3)).map (fun k => [3*k, 3*k + 1, 3*k + 2])) ∧
    (∀ p ∈ (List.range (n / 3)).map (fun k => [3*k, 3*k + 1, 3*k + 2]), p.length = 3) ∧
    ((List.range (n / 3)).map (fun k => [3*k, 3*k + 1, 3*k + 2])).flatten = List.range n ∧
    distribute_teams_into_poules 9 4 = .ok [[0,1,2],[3,4,5],[6,7,8]] := by
  refine ⟨?_, ?_, ?_, by decide⟩
  · have hq : 0 < n / 4 := by omega
    unfold distribute_teams_into_poules
    rw [if_neg (by omega), if_neg (by omega)]
    simp only [h4, hq, eq_self_iff_true, true_and, and_true, and_self, if_true,
      lt_self_iff_false, and_false, if_false, List.range_zero, List.map_nil,
      Nat.zero_mul, Nat.sub_zero]
    rw [remainderGo_of_three_dvd n 0 [] h3]
    simp only [List.nil_append, Nat.zero_add]
  · intro p hp
    rw [List.mem_map] at hp
    obtain ⟨k, _, hk⟩ := hp
    rw [← hk]
    rfl
  · rw [flatten_triples (n / 3)]
    congr 1
    omega

/-- Witness for `c4_mod4_one_and_mod3_zero_gives_all_triples` at
`num_teams = 9`. -/
theorem c4_mod4_one_and_mod3_zero_gives_all_triples_witness :
    distribute_teams_into_poules 9 4 = .ok [[0,1,2],[3,4,5],[6,7,8]] :=
  (c4_mod4_one_and_mod3_zero_gives_all_triples 9 (by decide) (by decide)
    (by decide)).2.2.2

/-! ### Lemmas: round-robin match generation -/

theorem countP_flatMap {α β : Type} (p : β → Bool) (f : α → List β) (l : List α) :
    (l.flatMap f).countP p = (l.map (fun a => (f a).countP p)).sum := by
  induction l with
  | nil => rfl
  | cons x l ih =>
      simp only [List.flatMap_cons, List.countP_append, List.map_cons,
        List.sum_cons, ih]

theorem sum_map_add_one {l : List Nat} {f g : Nat → Nat}
    (h : ∀ x ∈ l, f x = g x + 1) :
    (l.map f).sum = (l.map g).sum + l.length := by
  induction l with
  | nil => rfl
  | cons x l ih =>
      simp only [List.map_cons, List.sum_cons, List.length_cons,
        h x (List.mem_cons_self x l),
        ih (fun y hy => h y (List.mem_cons_of_mem x hy))]
      omega

theorem twice_trisum (n : Nat) :
    2 * ((List.range n).map (fun i => n - (i + 1))).sum = n * (n - 1) := by
  induction n with
  | zero => rfl
  | succ n ih =>
      rw [List.range_succ, List.map_append, List.sum_append]
      rw [sum_map_add_one (f := fun i => n + 1 - (i + 1)) (g := fun i => n - (i + 1))
        (fun i hi => by
          rw [List.mem_range] at hi
          show n + 1 - (i + 1) = n - (i + 1) + 1
          omega)]
      have h1 : (n + 1) * (n + 1 - 1) = n * (n - 1) + 2 * n := by
        cases n with
        | zero => rfl
        | succ m =>
            simp only [Nat.add_sub_cancel]
            ring
      simp only [List.map_cons, List.map_nil, List.sum_cons, List.sum_nil,
        List.length_range]
      omega

theorem round_robin_matches_length (tid : Nat) (phase : MatchPhase)
    (pid : Option String) (teams : List Team) :
    (round_robin_matches tid phase pid teams).length
      = teams.length * (teams.length - 1) / 2 := by
  rw [round_robin_matches, List.length_flatMap]
  have hcong :
      List.map
        (List.length ∘ fun i =>
          (List.range' (i + 1) (teams.length - (i + 1))).map
            (fun j => Match.unplayed tid phase pid (teams.getD i defaultTeam)
              (teams.getD j defaultTeam)))
        (List.range teams.length)
      = List.map (fun i => teams.length - (i + 1)) (List.range teams.length) := by
    apply List.map_congr_left
    intro i _
    simp [List.length_range']
  rw [hcong]
  have h2 := twice_trisum teams.length
  omega

theorem round_robin_matches_unplayed (tid : Nat) (phase : MatchPhase)
    (pid : Option String) (teams : List Team) :
    ∀ m ∈ round_robin_matches tid phase pid teams, m.is_played = false := by
  intro m hm
  rw [round_robin_matches, List.mem_flatMap] at hm
  obtain ⟨i, _, hm⟩ := hm
  rw [List.mem_map] at hm
  obtain ⟨j, _, rfl⟩ := hm
  rfl

theorem sum_indicator_count (l : List Nat) (i0 : Nat) :
    (l.map (fun i => if i = i0 then 1 else 0)).sum = l.count i0 := by
  induction l with
  | nil => rfl
  | cons x l ih =>
      simp only [List.map_cons, List.sum_cons, ih, List.count_cons, beq_iff_eq]
      by_cases h : x = i0 <;> simp [h] <;> omega

theorem rr_pair_count_aux (tid : Nat) (phase : MatchPhase) (pid : Option String)
    (teams : List Team) (hnd : (teams.map Team.id).Nodup) (t1 t2 : Team)
    (a c : Nat) (ha : a < teams.length) (hc : c < teams.length) (hac : a < c)
    (hta : (teams.getD a defaultTeam).id = t1.id)
    (htc : (teams.getD c defaultTeam).id = t2.id)
    (hne : t1.id ≠ t2.id) :
    (round_robin_matches tid phase pid teams).countP
      (fun m => decide ((m.team1.id = t1.id ∧ m.team2.id = t2.id) ∨
                        (m.team1.id = t2.id ∧ m.team2.id = t1.id))) = 1 := by
  have idinj : ∀ i j, i < teams.length → j < teams.length →
      (teams.getD i defaultTeam).id = (teams.getD j defaultTeam).id → i = j := by
    intro i j hi hj he
    rw [List.getD_eq_getElem _ _ hi, List.getD_eq_getElem _ _ hj] at he
    have hmi : i < (teams.map Team.id).length := by simpa using hi
    have hmj : j < (teams.map Team.id).length := by simpa using hj
    have hm : (teams.map Team.id)[i] = (teams.map Team.id)[j] := by
      rw [List.getElem_map, List.getElem_map]
      exact he
    exact hnd.getElem_inj_iff.mp hm
  rw [round_robin_matches, countP_flatMap]
  have hinner : ∀ i ∈ List.range teams.length,
      (fun i =>
        (((List.range' (i + 1) (teams.length - (i + 1))).map
          (fun j => Match.unplayed tid phase pid (teams.getD i defaultTeam)
            (teams.getD j defaultTeam))).countP
          (fun m => decide ((m.team1.id = t1.id ∧ m.team2.id = t2.id) ∨
                            (m.team1.id = t2.id ∧ m.team2.id = t1.id))))) i
      = (fun i => if i = a then 1 else 0) i := by
    intro i hi
    rw [List.mem_range] at hi
    simp only []
    rw [List.countP_map]
    by_cases hia : i = a
    · subst hia
      rw [if_pos rfl]
      rw [List.countP_congr (q := fun j => j == c) ?_]
      · exact List.count_eq_one_of_mem (List.nodup_range' _ _)
          (by rw [List.mem_range'_1]; omega)
      · intro j hj
        rw [List.mem_range'_1] at hj
        simp only [Function.comp_apply, Match.unplayed, decide_eq_true_eq,
          beq_iff_eq]
        constructor
        · rintro (⟨hj1, hj2⟩ | ⟨hj1, hj2⟩)
          · exact idinj j c (by omega) hc (by rw [hj2, ← htc])
          · exact absurd (by rw [← hj1, hta]) hne
        · intro hjc
          subst hjc
          exact Or.inl ⟨hta, htc⟩
    · rw [if_neg hia]
      rw [List.countP_eq_zero]
      intro j hj hP
      rw [List.mem_range'_1] at hj
      simp only [Function.comp_apply, Match.unplayed, decide_eq_true_eq] at hP
      rcases hP with ⟨hP1, hP2⟩ | ⟨hP1, hP2⟩
      · exact hia (idinj i a (by omega) ha (by rw [hP1, ← hta]))
      · have hic : i = c := idinj i c (by omega) hc (by rw [hP1, ← htc])
        have hja : j = a := idinj j a (by omega) ha (by rw [hP2, ← hta])
        omega
  rw [List.map_congr_left hinner, sum_indicator_count]
  exact List.count_eq_one_of_mem (List.nodup_range _) (List.mem_range.mpr ha)

theorem round_robin_matches_pair_count (tid : Nat) (phase : MatchPhase)
    (pid : Option String) (teams : List Team)
    (hnd : (teams.map Team.id).Nodup) (t1 t2 : Team)
    (h1 : t1 ∈ teams) (h2 : t2 ∈ teams) (hne : t1.id ≠ t2.id) :
    (round_robin_matches tid phase pid teams).countP
      (fun m => decide ((m.team1.id = t1.id ∧ m.team2.id = t2.id) ∨
                        (m.team1.id = t2.id ∧ m.team2.id = t1.id))) = 1 := by
  obtain ⟨a, ha, hta⟩ := List.mem_iff_getElem.mp h1
  obtain ⟨c, hc, htc⟩ := List.mem_iff_getElem.mp h2
  have hta' : (teams.getD a defaultTeam).id = t1.id := by
    rw [List.getD_eq_getElem _ _ ha, hta]
  have htc' : (teams.getD c defaultTeam).id = t2.id := by
    rw [List.getD_eq_getElem _ _ hc, htc]
  have hac : a ≠ c := by
    intro he
    apply hne
    rw [← hta', ← htc', he]
  rcases Nat.lt_trichotomy a c with hlt | heq | hgt
  · exact rr_pair_count_aux tid phase pid teams hnd t1 t2 a c ha hc hlt hta' htc' hne
  · exact absurd heq hac
  · rw [List.countP_congr
      (q := fun m => decide ((m.team1.id = t2.id ∧ m.team2.id = t1.id) ∨
                             (m.team1.id = t1.id ∧ m.team2.id = t2.id)))
      (by intro m _; simp only [decide_eq_true_eq]; exact or_comm)]
    exact rr_pair_count_aux tid phase pid teams hnd t2 t1 c a hc ha hgt htc' hta'
      (fun he => hne he.symm)

/-- C6: on any team sequence handed to match generation (one poule of the
default tournament, or the whole list for flat round-robin — both call the
same nested `i < j` loop embedded as `round_robin_matches`), exactly
`N*(N-1)/2` matches are produced, all unplayed, and each unordered pair of
distinct teams appears in exactly one match of the scope. -/
theorem c6_round_robin_generates_each_pair_once (tid : Nat)
    (phase : MatchPhase) (pid : Option String) (teams : List Team)
    (hnd : (teams.map Team.id).Nodup) :
    (round_robin_matches tid phase pid teams).length
      = teams.length * (teams.length - 1) / 2 ∧
    (∀ m ∈ round_robin_matches tid phase pid teams, m.is_played = false) ∧
    (∀ t1 ∈ teams, ∀ t2 ∈ teams, t1.id ≠ t2.id →
      (round_robin_matches tid phase pid teams).countP
        (fun m => decide ((m.team1.id = t1.id ∧ m.team2.id = t2.id) ∨
                          (m.team1.id = t2.id ∧ m.team2.id = t1.id))) = 1) :=
  ⟨round_robin_matches_length tid phase pid teams,
   round_robin_matches_unplayed tid phase pid teams,
   fun t1 h1 t2 h2 hne =>
     round_robin_matches_pair_count tid phase pid teams hnd t1 t2 h1 h2 hne⟩

/-- Witness for `c6_round_robin_generates_each_pair_once` on the three-team
roster: 3 matches, and the pair (teamA, teamB) appears exactly once. -/
theorem c6_round_robin_generates_each_pair_once_witness :
    (round_robin_matches 1 MatchPhase.poule none [teamA, teamB, teamC]).length = 3 ∧
    (round_robin_matches 1 MatchPhase.poule none [teamA, teamB, teamC]).countP
      (fun m => decide ((m.team1.id = teamA.id ∧ m.team2.id = teamB.id) ∨
                        (m.team1.id = teamB.id ∧ m.team2.id = teamA.id))) = 1 := by
  have h := c6_round_robin_generates_each_pair_once 1 MatchPhase.poule none
    [teamA, teamB, teamC] (by decide)
  refine ⟨?_, ?_⟩
  · rw [h.1]
    decide
  · exact h.2.2 teamA (by decide) teamB (by decide) (by decide)

/-! ### Lemmas: the stable sort used for standings -/

theorem perm_orderedInsertBy {α : Type} (le : α → α → Bool) (x : α) :
    ∀ l : List α, (orderedInsertBy le x l).Perm (x :: l) := by
  intro l
  induction l with
  | nil => exact List.Perm.refl _
  | cons y l ih =>
      rw [orderedInsertBy]
      split
      · exact List.Perm.refl _
      · exact (ih.cons y).trans (List.Perm.swap x y l)

theorem perm_insortBy {α : Type} (le : α → α → Bool) :
    ∀ l : List α, (insortBy le l).Perm l := by
  intro l
  induction l with
  | nil => exact List.Perm.refl _
  | cons x l ih =>
      rw [insortBy]
      exact (perm_orderedInsertBy le x (insortBy le l)).trans (ih.cons x)

theorem pairwise_orderedInsertBy {α : Type} (le : α → α → Bool)
    (htot : ∀ a b, le a b = true ∨ le b a = true)
    (htrans : ∀ a b c, le a b = true → le b c = true → le a c = true)
    (x : α) :
    ∀ l : List α, l.Pairwise (fun a b => le a b = true) →
      (orderedInsertBy le x l).Pairwise (fun a b => le a b = true) := by
  intro l
  induction l with
  | nil => intro _; simp [orderedInsertBy]
  | cons y l ih =>
      intro hl
      rw [List.pairwise_cons] at hl
      rw [orderedInsertBy]
      split
      · rename_i hxy
        rw [List.pairwise_cons]
        refine ⟨?_, List.pairwise_cons.mpr hl⟩
        intro z hz
        rcases List.mem_cons.mp hz with rfl | hz
        · exact hxy
        · exact htrans x y z hxy (hl.1 z hz)
      · rename_i hxy
        have hyx : le y x = true := (htot x y).resolve_left hxy
        rw [List.pairwise_cons]
        refine ⟨?_, ih hl.2⟩
        intro z hz
        rcases (perm_orderedInsertBy le x l).mem_iff.mp hz with hz2
        rcases List.mem_cons.mp hz2 with rfl | hz3
        · exact hyx
        · exact hl.1 z hz3

theorem pairwise_insortBy {α : Type} (le : α → α → Bool)
    (htot : ∀ a b, le a b = true ∨ le b a = true)
    (htrans : ∀ a b c, le a b = true → le b c = true → le a c = true) :
    ∀ l : List α, (insortBy le l).Pairwise (fun a b => le a b = true) := by
  intro l
  induction l with
  | nil => exact List.Pairwise.nil
  | cons x l ih =>
      rw [insortBy]
      exact pairwise_orderedInsertBy le htot htrans x (insortBy le l) ih

/-! ### Lemmas: the ranking comparison -/

theorem ltb_false_iff_rankGe (a b : TeamStats) :
    TeamStats.ltb a b = false ↔ rankGe a b := by
  rw [TeamStats.ltb, rankGe]
  split
  · rename_i h1
    simp only [decide_eq_false_iff_not, Nat.not_lt]
    omega
  · split
    · rename_i h1 h2
      simp only [decide_eq_false_iff_not, Int.not_lt]
      omega
    · rename_i h1 h2
      simp only [decide_eq_false_iff_not, Int.not_lt]
      omega

theorem rankGe_total (a b : TeamStats) : rankGe a b ∨ rankGe b a := by
  rw [rankGe, rankGe]
  omega

theorem rankGe_trans (a b c : TeamStats) :
    rankGe a b → rankGe b c → rankGe a c := by
  rw [rankGe, rankGe, rankGe]
  omega

/-! ### Lemmas: every roster team keeps an entry in the stats dict -/

theorem keys_updateTeam1 (m : Match) (d : Dict) :
    (updateTeam1 m d).map Prod.fst = d.map Prod.fst := by
  rw [updateTeam1, List.map_map]
  apply List.map_congr_left
  intro kv _
  simp only [Function.comp_apply]
  split <;> rfl

theorem keys_updateTeam2 (m : Match) (d : Dict) :
    (updateTeam2 m d).map Prod.fst = d.map Prod.fst := by
  rw [updateTeam2, List.map_map]
  apply List.map_congr_left
  intro kv _
  simp only [Function.comp_apply]
  split <;> rfl

theorem keys_processMatch (d : Dict) (m : Match) :
    (processMatch d m).map Prod.fst = d.map Prod.fst := by
  rw [processMatch]
  split
  · rfl
  · rw [keys_updateTeam2, keys_updateTeam1]

theorem keys_foldl_processMatch (ms : List Match) :
    ∀ d : Dict, ((ms.foldl processMatch d).map Prod.fst) = d.map Prod.fst := by
  induction ms with
  | nil => intro d; rfl
  | cons m ms ih =>
      intro d
      rw [List.foldl_cons, ih (processMatch d m), keys_processMatch]

theorem mem_keys_dinsert (d : Dict) (k : Nat) (v : TeamStats) :
    k ∈ (dinsert d k v).map Prod.fst := by
  rw [dinsert]
  split
  · rename_i h
    rw [List.any_eq_true] at h
    obtain ⟨kv, hkv, he⟩ := h
    rw [decide_eq_true_eq] at he
    rw [List.map_map, List.mem_map]
    exact ⟨kv, hkv, by simp [Function.comp_apply, he]⟩
  · rw [List.map_append, List.mem_append]
    right
    simp

theorem mem_keys_dinsert_of_mem (d : Dict) (k k' : Nat) (v : TeamStats)
    (h : k' ∈ d.map Prod.fst) : k' ∈ (dinsert d k v).map Prod.fst := by
  rw [dinsert]
  split
  · rw [List.mem_map] at h
    obtain ⟨kv, hkv, he⟩ := h
    rw [List.map_map, List.mem_map]
    refine ⟨kv, hkv, ?_⟩
    simp only [Function.comp_apply]
    split
    · rename_i hk; rw [← he, hk]
    · exact he
  · rw [List.map_append, List.mem_append]
    exact Or.inl h

theorem mem_keys_initStats (teams : List Team) (t : Team) (ht : t ∈ teams) :
    t.id ∈ (initStats teams).map Prod.fst := by
  suffices h : ∀ (ts : List Team) (d : Dict),
      (t ∈ ts ∨ t.id ∈ d.map Prod.fst) →
        t.id ∈ ((ts.foldl (fun d t => dinsert d t.id (TeamStats.init t)) d).map Prod.fst) by
    exact h teams [] (Or.inl ht)
  intro ts
  induction ts with
  | nil =>
      intro d hd
      rcases hd with hd | hd
      · cases hd
      · exact hd
  | cons u ts ih =>
      intro d hd
      rw [List.foldl_cons]
      rcases hd with hd | hd
      · rcases List.mem_cons.mp hd with rfl | hd2
        · exact ih _ (Or.inr (mem_keys_dinsert d t.id (TeamStats.init t)))
        · exact ih _ (Or.inl hd2)
      · exact ih _ (Or.inr (mem_keys_dinsert_of_mem d u.id t.id (TeamStats.init u) hd))

theorem dfind_isSome_of_mem_keys (d : Dict) (k : Nat)
    (h : k ∈ d.map Prod.fst) : ∃ s, dfind d k = some s := by
  rw [List.mem_map] at h
  obtain ⟨kv, hkv, he⟩ := h
  rw [dfind]
  have : (d.find? (fun kv => kv.1 = k)).isSome = true := by
    rw [List.find?_isSome]
    exact ⟨kv, hkv, by rw [decide_eq_true_eq]; exact he⟩
  obtain ⟨kv2, hkv2⟩ := Option.isSome_iff_exists.mp this
  rw [hkv2]
  exact ⟨kv2.2, rfl⟩

theorem filterMap_stats_fst (d : Dict) :
    ∀ teams : List Team, (∀ t ∈ teams, ∃ s, dfind d t.id = some s) →
      ((teams.filterMap (fun t => (dfind d t.id).map (fun s => (t, s)))).map
        Prod.fst) = teams := by
  intro teams
  induction teams with
  | nil => intro _; rfl
  | cons t teams ih =>
      intro h
      obtain ⟨s, hs⟩ := h t (List.mem_cons_self t teams)
      rw [List.filterMap_cons]
      simp only [hs, Option.map_some']
      rw [List.map_cons, ih (fun u hu => h u (List.mem_cons_of_mem t hu))]

/-- C7: `calculate_poule_standings` returns the roster teams ranked
descending by wins, then sets balance, then points balance (relation
`rankGe`, written from the spec's tie-break chain); teams equal on all
three keys may appear in either order (the sort is merely stable), and the
output is a permutation of the roster. -/
theorem c7_standings_sorted_descending (teams : List Team) (ms : List Match) :
    (calculate_poule_standings teams ms).Pairwise (fun p q => rankGe p.2 q.2) ∧
    ((calculate_poule_standings teams ms).map Prod.fst).Perm teams := by
  have hiff : ∀ p q : Team × TeamStats,
      ((fun p q : Team × TeamStats => ! TeamStats.ltb p.2 q.2) p q = true)
        ↔ rankGe p.2 q.2 := by
    intro p q
    rw [Bool.not_eq_true']
    exact ltb_false_iff_rankGe p.2 q.2
  have hcalc : calculate_poule_standings teams ms
      = insortBy (fun p q => ! TeamStats.ltb p.2 q.2)
          (teams.filterMap
            (fun t => (dfind (ms.foldl processMatch (initStats teams)) t.id).map
              (fun s => (t, s)))) := rfl
  constructor
  · rw [hcalc]
    have hp := pairwise_insortBy (fun p q : Team × TeamStats => ! TeamStats.ltb p.2 q.2)
      (fun a b => by
        rcases rankGe_total a.2 b.2 with h | h
        · exact Or.inl ((hiff a b).mpr h)
        · exact Or.inr ((hiff b a).mpr h))
      (fun a b c h1 h2 =>
        (hiff a c).mpr (rankGe_trans a.2 b.2 c.2 ((hiff a b).mp h1) ((hiff b c).mp h2)))
      (teams.filterMap
        (fun t => (dfind (ms.foldl processMatch (initStats teams)) t.id).map
          (fun s => (t, s))))
    exact hp.imp (fun h => (hiff _ _).mp h)
  · rw [hcalc]
    have hperm := (perm_insortBy (fun p q : Team × TeamStats => ! TeamStats.ltb p.2 q.2)
      (teams.filterMap
        (fun t => (dfind (ms.foldl processMatch (initStats teams)) t.id).map
          (fun s => (t, s))))).map Prod.fst
    have hfst : ((teams.filterMap
        (fun t => (dfind (ms.foldl processMatch (initStats teams)) t.id).map
          (fun s => (t, s)))).map Prod.fst) = teams :=
      filterMap_stats_fst _ teams
        (fun t ht => dfind_isSome_of_mem_keys _ _
          (by rw [keys_foldl_processMatch]; exact mem_keys_initStats teams t ht))
    rw [hfst] at hperm
    exact hperm
